import Mathlib

/-
Verification of the ghostty-web render/selection core.

The definitions below are a shallow embedding of src/lib/renderer.ts
(class CanvasRenderer) together with the collaborator interfaces it
consumes (IRenderable, IScrollbackProvider) and, where the component
itself is not part of the available sources (the SelectionManager and
the terminal screen-switch coordinator, of which only tests are
available), models written from the specification document.

JavaScript numbers are embedded as follows: integer-valued quantities
(row/column indices, lengths, ids) as Int or Nat, and the possibly
fractional viewport offset and opacities as Rat.  All arithmetic that
matters here (comparisons, Math.floor, integer addition/subtraction)
is exact on the doubles the program actually uses, so Rat is a
faithful model.
-/

namespace GhosttyWeb

/-- A terminal cell, from GhosttyCell in src/lib/types.ts. -/
structure GhosttyCell where
  codepoint : ℕ
  fg_r : ℕ
  fg_g : ℕ
  fg_b : ℕ
  bg_r : ℕ
  bg_g : ℕ
  bg_b : ℕ
  flags : ℕ
  width : ℕ
  hyperlink_id : ℕ
  deriving DecidableEq, Repr

/-- A line of cells, as returned by getLine / getScrollbackLine. -/
abbrev Line := List GhosttyCell

/-- Terminal dimensions as returned by IRenderable.getDimensions. -/
structure Dimensions where
  cols : ℕ
  rows : ℕ
  deriving DecidableEq, Repr

/-- Cursor state as returned by IRenderable.getCursor. -/
structure CursorState where
  x : ℤ
  y : ℤ
  visible : Bool
  deriving DecidableEq, Repr

/-- The read-only snapshot interface IRenderable of src/lib/renderer.ts.
getLine returns null (here: none) for unavailable rows; needsFullRedraw
is an optional method, modelled as an optional Bool-valued result. -/
structure IRenderable where
  getLine : ℤ → Option Line
  cursor : CursorState
  dims : Dimensions
  isRowDirty : ℤ → Bool
  needsFullRedraw : Option Bool

/-- The IScrollbackProvider interface of src/lib/renderer.ts. -/
structure IScrollbackProvider where
  getScrollbackLine : ℤ → Option Line
  getScrollbackLength : ℤ

/-- The source a viewport row is fetched from, as resolved by the body of
CanvasRenderer.render (src/lib/renderer.ts lines 484-506, and identically
lines 396-414 for the hyperlink scan). -/
inductive RowSource where
  | scrollback (offset : ℤ)
  | screen (row : ℤ)
  deriving DecidableEq, Repr

/-- Row source resolution performed inside CanvasRenderer.render
(src/lib/renderer.ts lines 486-506):
if (viewportY > 0) then
  if (y < viewportY and scrollbackProvider) then scrollback line at
    offset scrollbackLength - Math.floor(viewportY) + y
  else screen line at row (viewportY > 0 ? y - Math.floor(viewportY) : y)
else screen line at row y.
Note that the branch condition compares y with the raw viewportY while the
offset arithmetic uses Math.floor(viewportY). -/
def rowSource (viewportY : ℚ) (scrollbackLength : ℤ) (hasProvider : Bool)
    (y : ℤ) : RowSource :=
  if 0 < viewportY then
    if (y : ℚ) < viewportY ∧ hasProvider then
      RowSource.scrollback (scrollbackLength - ⌊viewportY⌋ + y)
    else
      RowSource.screen (if 0 < viewportY then y - ⌊viewportY⌋ else y)
  else
    RowSource.screen y

/-- scrollbackLength as computed at src/lib/renderer.ts line 313: the
provider value when a provider is given, otherwise 0. -/
def scrollbackLengthOf (provider : Option IScrollbackProvider) : ℤ :=
  match provider with
  | some p => p.getScrollbackLength
  | none => 0

/-- Fetch the line for a viewport row from the resolved source
(src/lib/renderer.ts lines 484-506). -/
def fetchViewportLine (buffer : IRenderable)
    (provider : Option IScrollbackProvider) (viewportY : ℚ)
    (scrollbackLength : ℤ) (y : ℤ) : Option Line :=
  match rowSource viewportY scrollbackLength provider.isSome y with
  | RowSource.scrollback off =>
    match provider with
    | some p => p.getScrollbackLine off
    | none => none
  | RowSource.screen r => buffer.getLine r

/-- Viewport-relative selection coordinates, as returned by
SelectionManager.getSelectionCoords (shape from src/lib/renderer.ts
lines 120-125). -/
structure SelCoords where
  startCol : ℤ
  startRow : ℤ
  endCol : ℤ
  endRow : ℤ
  deriving DecidableEq, Repr

/-- The values CanvasRenderer.render reads from its optional
SelectionManager collaborator: hasSelection(), getSelectionCoords()
and getDirtySelectionRows(). -/
structure SelectionView where
  hasSelection : Bool
  coords : Option SelCoords
  dirtyRows : Finset ℤ

/-- A hovered link range (src/lib/renderer.ts lines 132-139). -/
structure LinkRange where
  startX : ℤ
  startY : ℤ
  endX : ℤ
  endY : ℤ
  deriving DecidableEq, Repr

/-- The mutable fields of CanvasRenderer that the render pass reads
(src/lib/renderer.ts lines 106-139). -/
structure RendererState where
  lastViewportY : ℚ
  lastCursorX : ℤ
  lastCursorY : ℤ
  cursorVisible : Bool
  cursorBlink : Bool
  hoveredHyperlinkId : ℕ
  previousHoveredHyperlinkId : ℕ
  hoveredLinkRange : Option LinkRange
  previousHoveredLinkRange : Option LinkRange

/-- The arguments of one CanvasRenderer.render call (src/lib/renderer.ts
lines 299-305).  needsResize abstracts the canvas-size comparison of
lines 321-323 (it compares pixel quantities not otherwise modelled). -/
structure RenderArgs where
  buffer : IRenderable
  forceAll : Bool
  viewportY : ℚ
  provider : Option IScrollbackProvider
  scrollbarOpacity : ℚ
  needsResize : Bool
  selectionManager : Option SelectionView

/-- Result of the optional-chained call buffer.needsFullRedraw?.() at
src/lib/renderer.ts line 316: false when the method is absent. -/
def needsFullRedrawResult (b : IRenderable) : Bool :=
  b.needsFullRedraw.getD false

/-- The successive mutations of the local forceAll variable in render
(src/lib/renderer.ts lines 316-334): set to true if the buffer needs a
full redraw, then if the canvas was resized, then if viewportY differs
from the previous render call. -/
def effectiveForceAll (forceAll nfr needsResize : Bool)
    (viewportY lastViewportY : ℚ) : Bool :=
  let f1 := if nfr then true else forceAll
  let f2 := if needsResize then true else f1
  if viewportY ≠ lastViewportY then true else f2

/-- The selectionRows set of render (src/lib/renderer.ts lines 359-385):
the rows spanned by the current selection coordinates (queried only when
hasSelection()), plus the selection-dirty rows. -/
def renderSelectionRows (mgr : Option SelectionView) : Finset ℤ :=
  let currentCoords : Option SelCoords :=
    match mgr with
    | some v => if v.hasSelection then v.coords else none
    | none => none
  let fromCoords : Finset ℤ :=
    match currentCoords with
    | some c => Finset.Icc c.startRow c.endRow
    | none => ∅
  let fromDirty : Finset ℤ :=
    match mgr with
    | some v => v.dirtyRows
    | none => ∅
  fromCoords ∪ fromDirty

/-- Whether a (possibly missing) line contains a cell whose hyperlink id
is the currently or previously hovered one (src/lib/renderer.ts lines
416-427). -/
def lineHasHoveredHyperlink (hovered previous : ℕ) (line : Option Line) : Bool :=
  match line with
  | some cells => cells.any fun c => c.hyperlink_id == hovered || c.hyperlink_id == previous
  | none => false

/-- The scan over all viewport rows for lines containing the old or new
hovered hyperlink (src/lib/renderer.ts lines 393-428); each row is fetched
with the same scrollback/screen resolution as the paint loop. -/
def hyperlinkScanRows (st : RendererState) (buffer : IRenderable)
    (provider : Option IScrollbackProvider) (viewportY : ℚ)
    (scrollbackLength : ℤ) (rows : ℕ) : Finset ℤ :=
  Finset.image (fun n : ℕ => (n : ℤ))
    ((Finset.range rows).filter fun n =>
      lineHasHoveredHyperlink st.hoveredHyperlinkId st.previousHoveredHyperlinkId
        (fetchViewportLine buffer provider viewportY scrollbackLength (n : ℤ)))

/-- The rows covered by an optional hovered-link range
(src/lib/renderer.ts lines 433-449). -/
def rangeRows (r : Option LinkRange) : Finset ℤ :=
  match r with
  | some rg => Finset.Icc rg.startY rg.endY
  | none => ∅

/-- The hyperlinkRows set of render (src/lib/renderer.ts lines 387-451):
rows to repaint because the hovered hyperlink id or the hovered link
range changed since the previous frame. -/
def renderHyperlinkRows (st : RendererState) (buffer : IRenderable)
    (provider : Option IScrollbackProvider) (viewportY : ℚ)
    (scrollbackLength : ℤ) (rows : ℕ) : Finset ℤ :=
  let hyperlinkChanged := st.hoveredHyperlinkId ≠ st.previousHoveredHyperlinkId
  let linkRangeChanged := st.hoveredLinkRange ≠ st.previousHoveredLinkRange
  (if hyperlinkChanged then
    hyperlinkScanRows st buffer provider viewportY scrollbackLength rows
  else ∅) ∪
  (if linkRangeChanged then
    rangeRows st.previousHoveredLinkRange ∪ rangeRows st.hoveredLinkRange
  else ∅)

/-- The per-row needsRender condition of render (src/lib/renderer.ts lines
462-466): when scrolled (viewportY > 0) every row needs rendering;
otherwise a row needs rendering if forceAll, or it is dirty, or it is a
selection row, or it is a hyperlink row. -/
def renderNeeds (viewportY : ℚ) (forceAll : Bool) (buffer : IRenderable)
    (selectionRows hyperlinkRows : Finset ℤ) (y : ℤ) : Bool :=
  if 0 < viewportY then true
  else
    forceAll || buffer.isRowDirty y || decide (y ∈ selectionRows) ||
      decide (y ∈ hyperlinkRows)

/-- One iteration of the rowsToRender loop (src/lib/renderer.ts lines
461-474): a row that needs rendering is added together with its in-bounds
immediate vertical neighbors, to handle glyph overflow. -/
def renderStep (rows : ℕ) (needs : ℤ → Bool) (s : Finset ℤ) (yn : ℕ) :
    Finset ℤ :=
  if needs yn then
    let s1 := insert (yn : ℤ) s
    let s2 := if 0 < (yn : ℤ) then insert ((yn : ℤ) - 1) s1 else s1
    if (yn : ℤ) < (rows : ℤ) - 1 then insert ((yn : ℤ) + 1) s2 else s2
  else s

/-- The rowsToRender set of render (src/lib/renderer.ts lines 460-474). -/
def rowsToRender (rows : ℕ) (needs : ℤ → Bool) : Finset ℤ :=
  (List.range rows).foldl (renderStep rows needs) ∅

/-- Observable actions of one render pass, in program order. -/
inductive RenderEvent where
  | paintLine (y : ℤ)
  | paintCursor
  | paintScrollbar
  | clearDirty
  deriving DecidableEq, Repr

/-- The paint events of the main per-row loop of render
(src/lib/renderer.ts lines 477-511): each viewport row in rowsToRender is
fetched from its resolved source, painted when a line is available, and
silently skipped otherwise. -/
def mainLoopEvents (buffer : IRenderable) (provider : Option IScrollbackProvider)
    (viewportY : ℚ) (scrollbackLength : ℤ) (rows : ℕ) (toRender : Finset ℤ) :
    List RenderEvent :=
  (List.range rows).filterMap fun (yn : ℕ) =>
    if ((yn : ℕ) : ℤ) ∈ toRender ∧
        (fetchViewportLine buffer provider viewportY scrollbackLength
          ((yn : ℕ) : ℤ)).isSome
    then some (RenderEvent.paintLine ((yn : ℕ) : ℤ)) else none

/-- The cursor-line pre-pass of render (src/lib/renderer.ts lines
336-357): when the cursor moved or blinks, the (old and new) cursor lines
are repainted immediately unless forceAll or already dirty. -/
def cursorPrePassEvents (st : RendererState) (buffer : IRenderable)
    (forceAll : Bool) : List RenderEvent :=
  let cursor := buffer.cursor
  let cursorMoved := cursor.x ≠ st.lastCursorX ∨ cursor.y ≠ st.lastCursorY
  if cursorMoved ∨ st.cursorBlink then
    let e1 : List RenderEvent :=
      if ¬ forceAll ∧ ¬ buffer.isRowDirty cursor.y ∧
          (buffer.getLine cursor.y).isSome
      then [RenderEvent.paintLine cursor.y] else []
    let e2 : List RenderEvent :=
      if cursorMoved ∧ st.lastCursorY ≠ cursor.y ∧ ¬ forceAll ∧
          ¬ buffer.isRowDirty st.lastCursorY ∧
          (buffer.getLine st.lastCursorY).isSome
      then [RenderEvent.paintLine st.lastCursorY] else []
    e1 ++ e2
  else []

/-- The effective forceAll of one render call. -/
def renderEffectiveForceAll (st : RendererState) (a : RenderArgs) : Bool :=
  effectiveForceAll a.forceAll (needsFullRedrawResult a.buffer) a.needsResize
    a.viewportY st.lastViewportY

/-- The rowsToRender set of one render call, with the collaborator-derived
selection and hyperlink row sets plugged in. -/
def renderRowsToRender (st : RendererState) (a : RenderArgs) : Finset ℤ :=
  rowsToRender a.buffer.dims.rows
    (renderNeeds a.viewportY (renderEffectiveForceAll st a) a.buffer
      (renderSelectionRows a.selectionManager)
      (renderHyperlinkRows st a.buffer a.provider a.viewportY
        (scrollbackLengthOf a.provider) a.buffer.dims.rows))

/-- One complete CanvasRenderer.render pass (src/lib/renderer.ts lines
299-537) as its list of observable events plus the renderer state after
the call: cursor pre-pass, main paint loop, cursor (only at bottom),
scrollbar (only with a provider and positive opacity), and finally the
unconditional buffer.clearDirty(). -/
def renderTrace (st : RendererState) (a : RenderArgs) :
    List RenderEvent × RendererState :=
  let cursor := a.buffer.cursor
  let f := renderEffectiveForceAll st a
  let pre := cursorPrePassEvents st a.buffer f
  let main := mainLoopEvents a.buffer a.provider a.viewportY
    (scrollbackLengthOf a.provider) a.buffer.dims.rows (renderRowsToRender st a)
  let cur : List RenderEvent :=
    if a.viewportY = 0 ∧ cursor.visible ∧ st.cursorVisible
    then [RenderEvent.paintCursor] else []
  let sb : List RenderEvent :=
    if a.provider.isSome ∧ 0 < a.scrollbarOpacity
    then [RenderEvent.paintScrollbar] else []
  (pre ++ main ++ cur ++ sb ++ [RenderEvent.clearDirty],
   { st with
       lastViewportY :=
         if a.viewportY ≠ st.lastViewportY then a.viewportY else st.lastViewportY
       lastCursorX := cursor.x
       lastCursorY := cursor.y
       previousHoveredHyperlinkId :=
         if st.hoveredHyperlinkId ≠ st.previousHoveredHyperlinkId
         then st.hoveredHyperlinkId else st.previousHoveredHyperlinkId
       previousHoveredLinkRange :=
         if st.hoveredLinkRange ≠ st.previousHoveredLinkRange
         then st.hoveredLinkRange else st.previousHoveredLinkRange })

/-- Thumb geometry computed by renderScrollbar once past its early return
(src/lib/renderer.ts lines 1094-1099). -/
structure ScrollbarThumb where
  scrollPosition : ℚ
  thumbHeight : ℚ
  thumbY : ℚ
  deriving DecidableEq, Repr

/-- Result of one renderScrollbar call: the area is always cleared first;
the thumb geometry is computed only past the early return. -/
structure ScrollbarRender where
  clearedArea : Bool
  thumb : Option ScrollbarThumb
  deriving DecidableEq, Repr

/-- CanvasRenderer.renderScrollbar (src/lib/renderer.ts lines 1070-1110):
always clears the scrollbar area, then returns before any thumb-geometry
arithmetic when opacity ≤ 0 or scrollbackLength = 0; otherwise computes
the thumb using scrollPosition = viewportY / scrollbackLength.
trackHeight stands for canvasHeight minus twice the 4px padding. -/
def renderScrollbar (viewportY : ℚ) (scrollbackLength : ℤ) (visibleRows : ℕ)
    (opacity : ℚ) (trackHeight : ℚ) : ScrollbarRender :=
  { clearedArea := true
    thumb :=
      if opacity ≤ 0 ∨ scrollbackLength = 0 then none
      else
        let totalLines : ℚ := (scrollbackLength : ℚ) + (visibleRows : ℚ)
        let thumbHeight : ℚ := max 20 (((visibleRows : ℚ) / totalLines) * trackHeight)
        let scrollPosition : ℚ := viewportY / (scrollbackLength : ℚ)
        some { scrollPosition := scrollPosition
               thumbHeight := thumbHeight
               thumbY := 4 + (trackHeight - thumbHeight) * (1 - scrollPosition) } }

/-- C1, counterexample.  With scrollback length L = 10, a fractional
viewport offset viewportY = 5/2 (so Yf = floor(viewportY) = 2), and a
scrollback provider present, the viewport row y = 2 = Yf is fetched from
the scrollback at offset L - Yf + y = 10 (an out-of-range offset, one past
the last scrollback line), not from the live screen at row y - Yf = 0 as
the claim requires: the branch at src/lib/renderer.ts line 492 compares y
with the raw viewportY, not with its floor. -/
theorem c1_counterexample :
    rowSource (5 / 2) 10 true 2 = RowSource.scrollback 10 ∧
    rowSource (5 / 2) 10 true 2 ≠ RowSource.screen 0 := by
  have hfloor : (⌊(5 / 2 : ℚ)⌋ : ℤ) = 2 := by norm_num
  have h1 : rowSource (5 / 2) 10 true 2 = RowSource.scrollback 10 := by
    unfold rowSource
    rw [if_pos (by norm_num), if_pos (by norm_num), hfloor]
    norm_num
  exact ⟨h1, by rw [h1]; intro h; cases h⟩

/-- C1, amended.  For every viewportOffset ≥ 0, scrollback length L and
viewport row y ≥ 0, with a scrollback provider present, the row is fetched
from the scrollback at offset L - Yf + y exactly when y < viewportOffset
(the raw, unfloored value; equivalently y < ceil(viewportOffset)), and
from the live screen at row y - Yf otherwise, where Yf =
floor(viewportOffset).  For the boundary row y = Yf of a fractional
offset this selects the scrollback branch at out-of-range offset L. -/
theorem c1_row_source (viewportY : ℚ) (scrollbackLength y : ℤ)
    (hvy : 0 ≤ viewportY) (hy : 0 ≤ y) :
    rowSource viewportY scrollbackLength true y =
      if (y : ℚ) < viewportY then
        RowSource.scrollback (scrollbackLength - ⌊viewportY⌋ + y)
      else
        RowSource.screen (y - ⌊viewportY⌋) := by
  unfold rowSource
  rcases lt_or_eq_of_le hvy with hpos | hzero
  · rw [if_pos hpos]
    by_cases hlt : (y : ℚ) < viewportY
    · rw [if_pos ⟨hlt, rfl⟩, if_pos hlt]
    · rw [if_neg (by simp [hlt]), if_pos hpos, if_neg hlt]
  · rw [← hzero]
    have hnlt : ¬ ((y : ℚ) < 0) := by
      simp only [not_lt]
      exact_mod_cast hy
    rw [if_neg (by norm_num), if_neg hnlt]
    norm_num

/-- Witness for c1_row_source at viewportY = 3, L = 5, y = 1: the row is
fetched from scrollback at offset 5 - 3 + 1 = 3. -/
theorem c1_row_source_witness :
    rowSource 3 5 true 1 = RowSource.scrollback 3 := by
  have h := c1_row_source 3 5 1 (by norm_num) (by norm_num)
  rw [if_pos (by norm_num)] at h
  simpa using h

/-- Any event of the cursor pre-pass is a line paint. -/
theorem cursorPrePass_paintLine {st : RendererState} {b : IRenderable}
    {f : Bool} {e : RenderEvent} (he : e ∈ cursorPrePassEvents st b f) :
    ∃ y, e = RenderEvent.paintLine y := by
  simp only [cursorPrePassEvents] at he
  split_ifs at he <;>
    simp only [List.mem_append, List.mem_singleton, List.not_mem_nil,
      or_false, false_or] at he
  all_goals try exact ⟨_, he⟩
  all_goals try { rcases he with he | he <;> exact ⟨_, he⟩ }

/-- Any event of the main paint loop is a line paint. -/
theorem mainLoop_paintLine {b : IRenderable} {p : Option IScrollbackProvider}
    {vy : ℚ} {L : ℤ} {rows : ℕ} {s : Finset ℤ} {e : RenderEvent}
    (he : e ∈ mainLoopEvents b p vy L rows s) :
    ∃ y, e = RenderEvent.paintLine y := by
  unfold mainLoopEvents at he
  rw [List.mem_filterMap] at he
  obtain ⟨yn, _, hyn⟩ := he
  split_ifs at hyn
  exact ⟨(yn : ℤ), (Option.some_inj.mp hyn).symm⟩

/-- C6: a render pass is treated as a full repaint whenever the buffer
reports needsFullRedraw() = true, regardless of the forceAll argument,
and whenever the viewportOffset argument differs from the one of the
previous render call; the renderer records the current viewportOffset
for the next call. -/
theorem c6_forced_full_repaint (st : RendererState) (a : RenderArgs) :
    (a.buffer.needsFullRedraw = some true →
      renderEffectiveForceAll st a = true) ∧
    (a.viewportY ≠ st.lastViewportY → renderEffectiveForceAll st a = true) ∧
    (renderTrace st a).2.lastViewportY = a.viewportY := by
  refine ⟨?_, ?_, ?_⟩
  · intro h
    unfold renderEffectiveForceAll effectiveForceAll needsFullRedrawResult
    rw [h]
    simp
  · intro h
    unfold renderEffectiveForceAll effectiveForceAll
    simp [h]
  · unfold renderTrace
    by_cases h : a.viewportY = st.lastViewportY
    · simp [h]
    · simp [h]

/-- Sample buffer used to witness the render theorems: 2 rows, row 1 has
an (empty) line, row 0 has none, nothing dirty, full redraw requested. -/
def sampleBuffer : IRenderable :=
  { getLine := fun r => if r = 1 then some [] else none
    cursor := { x := 0, y := 0, visible := true }
    dims := { cols := 80, rows := 2 }
    isRowDirty := fun _ => false
    needsFullRedraw := some true }

/-- Sample renderer state used to witness the render theorems. -/
def sampleState : RendererState :=
  { lastViewportY := 0
    lastCursorX := 0
    lastCursorY := 0
    cursorVisible := true
    cursorBlink := false
    hoveredHyperlinkId := 0
    previousHoveredHyperlinkId := 0
    hoveredLinkRange := none
    previousHoveredLinkRange := none }

/-- Sample render arguments used to witness the render theorems. -/
def sampleArgs : RenderArgs :=
  { buffer := sampleBuffer
    forceAll := false
    viewportY := 0
    provider := none
    scrollbarOpacity := 1
    needsResize := false
    selectionManager := none }

/-- Witness for c6_forced_full_repaint: the sample buffer requests a full
redraw, so the pass is forced even though the caller passed
forceAll = false. -/
theorem c6_forced_full_repaint_witness :
    renderEffectiveForceAll sampleState sampleArgs = true :=
  (c6_forced_full_repaint sampleState sampleArgs).1 rfl

/-- C10: renderScrollbar always clears the scrollbar area, and returns
before any thumb-geometry arithmetic whenever opacity ≤ 0 or
scrollbackLength = 0; hence whenever thumb geometry (which divides by
scrollbackLength) is computed the divisor is nonzero.  Moreover render
invokes renderScrollbar only with a positive opacity. -/
theorem c10_scrollbar_division_guard (viewportY : ℚ) (scrollbackLength : ℤ)
    (visibleRows : ℕ) (opacity trackHeight : ℚ) (st : RendererState)
    (a : RenderArgs) :
    (renderScrollbar viewportY scrollbackLength visibleRows opacity
        trackHeight).clearedArea = true ∧
    (opacity ≤ 0 ∨ scrollbackLength = 0 →
      (renderScrollbar viewportY scrollbackLength visibleRows opacity
        trackHeight).thumb = none) ∧
    (∀ t, (renderScrollbar viewportY scrollbackLength visibleRows opacity
        trackHeight).thumb = some t → scrollbackLength ≠ 0) ∧
    (RenderEvent.paintScrollbar ∈ (renderTrace st a).1 →
      0 < a.scrollbarOpacity) := by
  refine ⟨rfl, ?_, ?_, ?_⟩
  · intro h
    unfold renderScrollbar
    simp only [if_pos h]
  · intro t ht hzero
    unfold renderScrollbar at ht
    rw [if_pos (Or.inr hzero)] at ht
    cases ht
  · intro hmem
    unfold renderTrace at hmem
    simp only [List.mem_append, List.mem_singleton] at hmem
    rcases hmem with ((((h | h) | h) | h) | h)
    · obtain ⟨y, hy⟩ := cursorPrePass_paintLine h
      cases hy
    · obtain ⟨y, hy⟩ := mainLoop_paintLine h
      cases hy
    · split_ifs at h <;> simp_all
    · split_ifs at h with hc
      · exact hc.2
      · simp at h
    · cases h

/-- Witness for c10_scrollbar_division_guard at opacity 0: the thumb is
not computed. -/
theorem c10_scrollbar_division_guard_witness :
    (renderScrollbar 0 5 24 0 100).thumb = none :=
  (c10_scrollbar_division_guard 0 5 24 0 100 sampleState sampleArgs).2.1
    (Or.inl le_rfl)

/-- C4: every completed render pass performs buffer.clearDirty() exactly
once, as its final action, unconditionally: for all renderer states and
all render arguments (any forceAll, any viewportOffset, whether or not
any row was repainted). -/
theorem c4_clear_dirty_once (st : RendererState) (a : RenderArgs) :
    (renderTrace st a).1.count RenderEvent.clearDirty = 1 ∧
    (renderTrace st a).1.getLast? = some RenderEvent.clearDirty := by
  unfold renderTrace
  simp only []
  constructor
  · rw [List.count_append, List.count_append, List.count_append,
      List.count_append]
    have hpre : (cursorPrePassEvents st a.buffer
        (renderEffectiveForceAll st a)).count RenderEvent.clearDirty = 0 := by
      rw [List.count_eq_zero]
      intro h
      obtain ⟨y, hy⟩ := cursorPrePass_paintLine h
      cases hy
    have hmain : (mainLoopEvents a.buffer a.provider a.viewportY
        (scrollbackLengthOf a.provider) a.buffer.dims.rows
        (renderRowsToRender st a)).count RenderEvent.clearDirty = 0 := by
      rw [List.count_eq_zero]
      intro h
      obtain ⟨y, hy⟩ := mainLoop_paintLine h
      cases hy
    rw [hpre, hmain]
    split_ifs <;> simp
  · exact List.getLast?_concat _

/-- What one iteration of the rowsToRender loop for source row yn
contributes: if the row needs rendering, the row itself and its in-bounds
immediate vertical neighbors. -/
def renderContrib (rows : ℕ) (needs : ℤ → Bool) (yn : ℕ) (z : ℤ) : Prop :=
  needs (yn : ℤ) = true ∧
    (z = (yn : ℤ) ∨ (0 < (yn : ℤ) ∧ z = (yn : ℤ) - 1) ∨
      ((yn : ℤ) < (rows : ℤ) - 1 ∧ z = (yn : ℤ) + 1))

/-- Membership after one loop iteration. -/
theorem mem_renderStep {rows : ℕ} {needs : ℤ → Bool} {s : Finset ℤ}
    {yn : ℕ} {z : ℤ} :
    z ∈ renderStep rows needs s yn ↔ z ∈ s ∨ renderContrib rows needs yn z := by
  simp only [renderStep, renderContrib]
  split_ifs <;> (try simp only [Finset.mem_insert]) <;> tauto

/-- Membership after folding the loop over a list of source rows. -/
theorem mem_foldl_renderStep {rows : ℕ} {needs : ℤ → Bool} {z : ℤ} :
    ∀ (l : List ℕ) (s : Finset ℤ),
      z ∈ l.foldl (renderStep rows needs) s ↔
        z ∈ s ∨ ∃ yn ∈ l, renderContrib rows needs yn z := by
  intro l
  induction l with
  | nil => intro s; simp
  | cons a t ih =>
    intro s
    rw [List.foldl_cons, ih, mem_renderStep]
    constructor
    · rintro ((h | h) | ⟨y, hy, hc⟩)
      · exact Or.inl h
      · exact Or.inr ⟨a, List.mem_cons_self a t, h⟩
      · exact Or.inr ⟨y, List.mem_cons_of_mem a hy, hc⟩
    · rintro (h | ⟨y, hy, hc⟩)
      · exact Or.inl (Or.inl h)
      · rcases List.mem_cons.mp hy with rfl | hy
        · exact Or.inl (Or.inr hc)
        · exact Or.inr ⟨y, hy, hc⟩

/-- Membership in the full rowsToRender set. -/
theorem mem_rowsToRender {rows : ℕ} {needs : ℤ → Bool} {z : ℤ} :
    z ∈ rowsToRender rows needs ↔
      ∃ yn, yn < rows ∧ renderContrib rows needs yn z := by
  unfold rowsToRender
  rw [mem_foldl_renderStep]
  simp [List.mem_range]

/-- The repaint condition of a single row at the bottom viewport position:
forceAll in effect, or the buffer reports the row dirty, or the row is in
the selection rows (active selection or selection-dirty set), or in the
hyperlink/link-hover change rows. -/
def renderBaseCondition (st : RendererState) (a : RenderArgs) (w : ℤ) : Prop :=
  renderEffectiveForceAll st a = true ∨
  a.buffer.isRowDirty w = true ∨
  w ∈ renderSelectionRows a.selectionManager ∨
  w ∈ renderHyperlinkRows st a.buffer a.provider a.viewportY
    (scrollbackLengthOf a.provider) a.buffer.dims.rows

/-- The needsRender test of render, characterized. -/
theorem renderNeeds_eq_true {st : RendererState} {a : RenderArgs} {w : ℤ} :
    renderNeeds a.viewportY (renderEffectiveForceAll st a) a.buffer
      (renderSelectionRows a.selectionManager)
      (renderHyperlinkRows st a.buffer a.provider a.viewportY
        (scrollbackLengthOf a.provider) a.buffer.dims.rows) w = true ↔
      (0 < a.viewportY ∨ renderBaseCondition st a w) := by
  unfold renderNeeds renderBaseCondition
  split_ifs with h
  · simp [h]
  · simp only [Bool.or_eq_true, decide_eq_true_eq]
    tauto

/-- C7: at viewportOffset = 0 a viewport row is selected for repaint if
and only if forceAll is in effect, or the row is dirty, or it lies in the
selection rows or selection-dirty rows, or it is affected by a
hyperlink/link-hover change, or an in-bounds immediate vertical neighbor
satisfies one of those conditions; when viewportOffset > 0 every viewport
row is selected unconditionally. -/
theorem c7_repaint_row_selection (st : RendererState) (a : RenderArgs)
    (z : ℤ) (hz0 : 0 ≤ z) (hzr : z < (a.buffer.dims.rows : ℤ)) :
    (0 < a.viewportY → z ∈ renderRowsToRender st a) ∧
    (a.viewportY = 0 →
      (z ∈ renderRowsToRender st a ↔
        renderBaseCondition st a z ∨
        (0 < z ∧ renderBaseCondition st a (z - 1)) ∨
        (z + 1 < (a.buffer.dims.rows : ℤ) ∧
          renderBaseCondition st a (z + 1)))) := by
  have hzcast : ((z.toNat : ℕ) : ℤ) = z := Int.toNat_of_nonneg hz0
  constructor
  · intro hvy
    unfold renderRowsToRender
    rw [mem_rowsToRender]
    refine ⟨z.toNat, by omega, renderNeeds_eq_true.mpr (Or.inl hvy),
      Or.inl (by omega)⟩
  · intro hvy0
    unfold renderRowsToRender
    rw [mem_rowsToRender]
    constructor
    · rintro ⟨yn, hyn, hneeds, hcase⟩
      rw [renderNeeds_eq_true] at hneeds
      rcases hneeds with hpos | hbase
      · rw [hvy0] at hpos
        norm_num at hpos
      · rcases hcase with hzz | ⟨hy0, hzz⟩ | ⟨hyr, hzz⟩
        · left
          rwa [hzz]
        · right; right
          refine ⟨by omega, ?_⟩
          have h2 : (yn : ℤ) = z + 1 := by omega
          rwa [h2] at hbase
        · right; left
          refine ⟨by omega, ?_⟩
          have h2 : (yn : ℤ) = z - 1 := by omega
          rwa [h2] at hbase
    · rintro (hbase | ⟨hz, hbase⟩ | ⟨hzr2, hbase⟩)
      · exact ⟨z.toNat, by omega,
          renderNeeds_eq_true.mpr (Or.inr (by rwa [hzcast])),
          Or.inl (by omega)⟩
      · have hcast : (((z - 1).toNat : ℕ) : ℤ) = z - 1 := by omega
        exact ⟨(z - 1).toNat, by omega,
          renderNeeds_eq_true.mpr (Or.inr (by rwa [hcast])),
          Or.inr (Or.inr ⟨by omega, by omega⟩)⟩
      · have hcast : (((z + 1).toNat : ℕ) : ℤ) = z + 1 := by omega
        exact ⟨(z + 1).toNat, by omega,
          renderNeeds_eq_true.mpr (Or.inr (by rwa [hcast])),
          Or.inr (Or.inl ⟨by omega, by omega⟩)⟩

/-- Witness for c7_repaint_row_selection: with the sample call (viewport
at bottom, full redraw requested by the buffer, so forceAll is in effect)
row 0 is selected for repaint. -/
theorem c7_repaint_row_selection_witness :
    (0 : ℤ) ∈ renderRowsToRender sampleState sampleArgs := by
  have hforce : renderEffectiveForceAll sampleState sampleArgs = true := by
    unfold renderEffectiveForceAll effectiveForceAll needsFullRedrawResult
      sampleArgs sampleState sampleBuffer
    norm_num
  exact ((c7_repaint_row_selection sampleState sampleArgs 0 (by norm_num)
    (by norm_num [sampleArgs, sampleBuffer])).2 rfl).mpr
    (Or.inl (Or.inl hforce))

/-- The main paint loop of one render call, with the pipeline inputs of
that call plugged in. -/
def renderMainLoopEvents (st : RendererState) (a : RenderArgs) :
    List RenderEvent :=
  mainLoopEvents a.buffer a.provider a.viewportY (scrollbackLengthOf a.provider)
    a.buffer.dims.rows (renderRowsToRender st a)

/-- C9: in the main paint loop of render, a row whose line is unavailable
(getLine or getScrollbackLine returned null) is painted as nothing and is
not an error, and every other selected row with an available line is still
painted: the frame runs to completion. -/
theorem c9_missing_line_skipped (st : RendererState) (a : RenderArgs)
    (y : ℤ) :
    (fetchViewportLine a.buffer a.provider a.viewportY
        (scrollbackLengthOf a.provider) y = none →
      RenderEvent.paintLine y ∉ renderMainLoopEvents st a) ∧
    (∀ z : ℕ, z < a.buffer.dims.rows → (z : ℤ) ∈ renderRowsToRender st a →
      (fetchViewportLine a.buffer a.provider a.viewportY
        (scrollbackLengthOf a.provider) (z : ℤ)).isSome = true →
      RenderEvent.paintLine (z : ℤ) ∈ renderMainLoopEvents st a) := by
  constructor
  · intro hnone hmem
    unfold renderMainLoopEvents mainLoopEvents at hmem
    rw [List.mem_filterMap] at hmem
    obtain ⟨yn, _, h⟩ := hmem
    split_ifs at h with hc
    have heq : (yn : ℤ) = y :=
      RenderEvent.paintLine.inj (Option.some_inj.mp h)
    rw [heq, hnone] at hc
    cases hc.2
  · intro z hz hmemR hsome
    unfold renderMainLoopEvents mainLoopEvents
    exact List.mem_filterMap.mpr
      ⟨z, List.mem_range.mpr hz, by rw [if_pos ⟨hmemR, hsome⟩]⟩

/-- Witness for c9_missing_line_skipped: in the sample call the buffer has
no line for row 0 (skipped without error) and a line for row 1 (still
painted). -/
theorem c9_missing_line_skipped_witness :
    RenderEvent.paintLine 0 ∉ renderMainLoopEvents sampleState sampleArgs ∧
    RenderEvent.paintLine 1 ∈ renderMainLoopEvents sampleState sampleArgs := by
  have hforce : renderEffectiveForceAll sampleState sampleArgs = true := by
    unfold renderEffectiveForceAll effectiveForceAll needsFullRedrawResult
      sampleArgs sampleState sampleBuffer
    norm_num
  have hmem1 : (1 : ℤ) ∈ renderRowsToRender sampleState sampleArgs := by
    unfold renderRowsToRender
    rw [mem_rowsToRender]
    exact ⟨1, by norm_num [sampleArgs, sampleBuffer],
      renderNeeds_eq_true.mpr (Or.inr (Or.inl hforce)), Or.inl (by norm_num)⟩
  constructor
  · refine (c9_missing_line_skipped sampleState sampleArgs 0).1 ?_
    simp [fetchViewportLine, rowSource, sampleArgs, sampleBuffer,
      scrollbackLengthOf]
  · refine (c9_missing_line_skipped sampleState sampleArgs 1).2 1
      (by norm_num [sampleArgs, sampleBuffer]) hmem1 ?_
    simp [fetchViewportLine, rowSource, sampleArgs, sampleBuffer,
      scrollbackLengthOf]

/-- The helper viewportRowToAbsolute of src/lib/terminal.test.ts lines
16-24: absolute row = scrollbackLength + viewportRow - floor(viewportY). -/
def viewportRowToAbsolute (scrollbackLength : ℤ) (viewportY : ℚ)
    (viewportRow : ℤ) : ℤ :=
  scrollbackLength + viewportRow - ⌊viewportY⌋

/-- Modelled from the spec: the inverse mapping of the Coordinate
Translator (terminal.ts is not among the available sources): given an
absolute row, viewport row = absoluteRow - L + Yf; it is meaningful only
when the result lies in [0, screenRows). -/
def absoluteToViewportRow (scrollbackLength : ℤ) (viewportY : ℚ)
    (absoluteRow : ℤ) : ℤ :=
  absoluteRow - scrollbackLength + ⌊viewportY⌋

/-- C5: converting a viewport row to an absolute row and back yields the
original row whenever the result lies in [0, screenRows). -/
theorem c5_coordinate_round_trip (scrollbackLength : ℤ) (viewportY : ℚ)
    (y screenRows : ℤ)
    (h0 : 0 ≤ absoluteToViewportRow scrollbackLength viewportY
      (viewportRowToAbsolute scrollbackLength viewportY y))
    (h1 : absoluteToViewportRow scrollbackLength viewportY
      (viewportRowToAbsolute scrollbackLength viewportY y) < screenRows) :
    absoluteToViewportRow scrollbackLength viewportY
      (viewportRowToAbsolute scrollbackLength viewportY y) = y := by
  unfold absoluteToViewportRow viewportRowToAbsolute
  ring

/-- Witness for c5_coordinate_round_trip at L = 100, viewportY = 3,
y = 5, screenRows = 24. -/
theorem c5_coordinate_round_trip_witness :
    absoluteToViewportRow 100 3 (viewportRowToAbsolute 100 3 5) = 5 :=
  c5_coordinate_round_trip 100 3 5 24
    (by norm_num [absoluteToViewportRow, viewportRowToAbsolute])
    (by norm_num [absoluteToViewportRow, viewportRowToAbsolute])

/-- Modelled from the spec: the events observed by the Screen-Switch /
Resize Coordinator (terminal.ts and the WASM terminal layer are not among
the available sources; behavior from spec section 4.4 and the regression
tests of src/lib/terminal.test.ts lines 1197-1243). -/
inductive CoordinatorEvent where
  | screenSwitch
  | resizeDims
  | query
  | clearPaint
  deriving DecidableEq, Repr

/-- Modelled from the spec: how one event updates the needsFullRedraw
flag: a primary/alternate screen swap or a column/row count change sets
it, a query leaves it untouched, and only the explicit dirty-state clear
of a completed paint pass resets it. -/
def coordStep (flag : Bool) : CoordinatorEvent → Bool
  | CoordinatorEvent.screenSwitch => true
  | CoordinatorEvent.resizeDims => true
  | CoordinatorEvent.query => flag
  | CoordinatorEvent.clearPaint => false

/-- Modelled from the spec: the needsFullRedraw flag after a sequence of
coordinator events. -/
def coordRun (flag : Bool) (events : List CoordinatorEvent) : Bool :=
  events.foldl coordStep flag

/-- C3: needsFullRedraw becomes true exactly on a screen switch or a
dimension change, repeated queries do not clear it, only the clearing
paint pass resets it to false, and a later switch repeats the same
true-then-cleared pulse. -/
theorem c3_full_redraw_pulse (flag : Bool) (n : ℕ) :
    coordStep flag CoordinatorEvent.screenSwitch = true ∧
    coordStep flag CoordinatorEvent.resizeDims = true ∧
    coordRun flag (List.replicate n CoordinatorEvent.query) = flag ∧
    coordStep flag CoordinatorEvent.clearPaint = false ∧
    (∀ e, coordStep false e = true →
      e = CoordinatorEvent.screenSwitch ∨ e = CoordinatorEvent.resizeDims) ∧
    coordRun flag
      [CoordinatorEvent.screenSwitch, CoordinatorEvent.query,
        CoordinatorEvent.clearPaint, CoordinatorEvent.query,
        CoordinatorEvent.screenSwitch, CoordinatorEvent.query] = true := by
  have hrep : ∀ (m : ℕ) (f : Bool),
      coordRun f (List.replicate m CoordinatorEvent.query) = f := by
    intro m
    induction m with
    | zero => intro f; rfl
    | succ k ih =>
      intro f
      rw [List.replicate_succ]
      exact ih f
  refine ⟨rfl, rfl, hrep n flag, rfl, ?_, rfl⟩
  intro e he
  cases e
  · exact Or.inl rfl
  · exact Or.inr rfl
  · cases he
  · cases he

/-- Witness for c3_full_redraw_pulse: a screen switch is among the events
that set the flag from false. -/
theorem c3_full_redraw_pulse_witness :
    CoordinatorEvent.screenSwitch = CoordinatorEvent.screenSwitch ∨
      CoordinatorEvent.screenSwitch = CoordinatorEvent.resizeDims :=
  ((c3_full_redraw_pulse false 2).2.2.2.2.1) CoordinatorEvent.screenSwitch rfl

/-- One selection endpoint: a column and an absolute row (the shape the
tests in src/lib/selection-manager.test.ts assign to selectionStart and
selectionEnd). -/
structure SelPoint where
  col : ℤ
  absoluteRow : ℤ
  deriving DecidableEq, Repr

/-- Modelled from the spec: the state the Selection Model reads
(selection-manager.ts is not among the available sources): the scrollback
store, the live screen, the screen row count, the viewport offset and the
two optional selection endpoints stored verbatim. -/
structure TerminalModel where
  scrollback : List Line
  screen : List Line
  screenRows : ℕ
  viewportY : ℚ
  selStart : Option SelPoint
  selEnd : Option SelPoint

/-- Modelled from the spec: read-time normalization of the two endpoints,
row-major then by column. -/
def normalizeSel (s e : SelPoint) : SelPoint × SelPoint :=
  if e.absoluteRow < s.absoluteRow ∨
      (e.absoluteRow = s.absoluteRow ∧ e.col < s.col)
  then (e, s) else (s, e)

/-- Modelled from the spec: resolving an absolute row through the
Coordinate Translator: rows [0, L) come from the scrollback store, rows
from L on from the live screen; out-of-range rows yield nothing. -/
def getAbsLine (scrollback screen : List Line) (r : ℤ) : Option Line :=
  if r < (scrollback.length : ℤ) then
    if 0 ≤ r then scrollback[r.toNat]? else none
  else
    screen[(r - (scrollback.length : ℤ)).toNat]?

/-- Modelled from the spec: the text of a sequence of cells. -/
def lineText (cells : Line) : String :=
  String.mk (cells.map fun c => Char.ofNat c.codepoint)

/-- Modelled from the spec: the substring of the line at absolute row r
selected by the normalized endpoints a and b: the full line for interior
rows, from the start column on the first row, up to the end column
(inclusive) on the last row; a missing line contributes nothing. -/
def extractRow (scrollback screen : List Line) (a b : SelPoint) (r : ℤ) :
    String :=
  match getAbsLine scrollback screen r with
  | none => ""
  | some line =>
    let cells :=
      if r = a.absoluteRow ∧ r = b.absoluteRow then
        (line.take (b.col.toNat + 1)).drop a.col.toNat
      else if r = a.absoluteRow then line.drop a.col.toNat
      else if r = b.absoluteRow then line.take (b.col.toNat + 1)
      else line
    lineText cells

/-- The absolute rows of the normalized selection range, first to last. -/
def selectionRowList (a b : ℤ) : List ℤ :=
  (List.range (b - a + 1).toNat).map fun (i : ℕ) => a + (i : ℤ)

/-- Modelled from the spec: SelectionManager.getSelection over the fields
it reads — always in absolute-row space, resolving each selected row
through the Coordinate Translator and joining rows with a newline; the
viewport offset is not consulted. -/
def getSelectionAux (scrollback screen : List Line)
    (selStart selEnd : Option SelPoint) : String :=
  match selStart, selEnd with
  | some s, some e =>
    let ab := normalizeSel s e
    let nl : String := "\n"
    String.intercalate nl
      ((selectionRowList ab.1.absoluteRow ab.2.absoluteRow).map
        (extractRow scrollback screen ab.1 ab.2))
  | _, _ => ""

/-- Modelled from the spec: SelectionManager.getSelection. -/
def getSelection (t : TerminalModel) : String :=
  getSelectionAux t.scrollback t.screen t.selStart t.selEnd

/-- The scroll operations exercised by the regression tests (scrollLines,
scrollToTop, scrollToBottom); modelled from the spec, they change only
the viewport offset, clamped to [0, scrollbackLength], and never cell
content or the stored selection endpoints. -/
inductive ScrollOp where
  | scrollLines (n : ℤ)
  | scrollToTop
  | scrollToBottom
  deriving DecidableEq, Repr

/-- Modelled from the spec: applying one scroll operation. -/
def applyScrollOp (t : TerminalModel) : ScrollOp → TerminalModel
  | ScrollOp.scrollLines n =>
    { t with
        viewportY := max 0 (min (t.viewportY - (n : ℚ))
          ((t.scrollback.length : ℕ) : ℚ)) }
  | ScrollOp.scrollToTop =>
    { t with viewportY := ((t.scrollback.length : ℕ) : ℚ) }
  | ScrollOp.scrollToBottom => { t with viewportY := 0 }

/-- A sequence of scroll operations. -/
def applyScrollOps (t : TerminalModel) (ops : List ScrollOp) : TerminalModel :=
  ops.foldl applyScrollOp t

/-- Scroll operations do not touch the fields getSelection reads. -/
theorem applyScrollOp_preserves (t : TerminalModel) (op : ScrollOp) :
    (applyScrollOp t op).scrollback = t.scrollback ∧
    (applyScrollOp t op).screen = t.screen ∧
    (applyScrollOp t op).selStart = t.selStart ∧
    (applyScrollOp t op).selEnd = t.selEnd := by
  cases op <;> simp [applyScrollOp]

/-- C2: getSelection returns character-for-character identical text
before and after any sequence of scroll operations, whether the selected
absolute rows lie in scrollback, on the live screen, or straddle the
boundary: scrolling changes only the viewport offset, which text
extraction never reads. -/
theorem c2_selection_scroll_invariant (t : TerminalModel)
    (ops : List ScrollOp) :
    getSelection (applyScrollOps t ops) = getSelection t := by
  induction ops generalizing t with
  | nil => rfl
  | cons op rest ih =>
    have hstep : getSelection (applyScrollOp t op) = getSelection t := by
      obtain ⟨h1, h2, h3, h4⟩ := applyScrollOp_preserves t op
      unfold getSelection
      rw [h1, h2, h3, h4]
    calc getSelection (applyScrollOps t (op :: rest))
        = getSelection (applyScrollOps (applyScrollOp t op) rest) := rfl
      _ = getSelection (applyScrollOp t op) := ih (applyScrollOp t op)
      _ = getSelection t := hstep

/-- Modelled from the spec: SelectionManager.getSelectionCoords —
normalizes the endpoints, maps them to viewport-relative rows through the
inverse Coordinate Translator mapping, and returns none rather than an
error when the normalized absolute range lies entirely outside the
visible range [L - Yf, L - Yf + screenRows). -/
def getSelectionCoords (t : TerminalModel) : Option SelCoords :=
  match t.selStart, t.selEnd with
  | some s, some e =>
    let ab := normalizeSel s e
    let L : ℤ := (t.scrollback.length : ℤ)
    let Yf : ℤ := ⌊t.viewportY⌋
    let startRow := ab.1.absoluteRow - L + Yf
    let endRow := ab.2.absoluteRow - L + Yf
    if endRow < 0 ∨ (t.screenRows : ℤ) ≤ startRow then none
    else some { startCol := ab.1.col, startRow := startRow,
                endCol := ab.2.col, endRow := endRow }
  | _, _ => none

/-- Replacing only the viewport offset (what scrolling does to the state
the Selection Model reads). -/
def setViewportY (t : TerminalModel) (v : ℚ) : TerminalModel :=
  { t with viewportY := v }

/-- C8: when the normalized absolute selection range lies entirely
outside the visible range [L - Yf, L - Yf + screenRows),
getSelectionCoords returns the not-visible value (none) rather than an
error, while getSelection still returns exactly the text it returns at
any other viewport offset (in particular the one where the selection was
visible). -/
theorem c8_offscreen_selection (t : TerminalModel) (s e : SelPoint)
    (hs : t.selStart = some s) (he : t.selEnd = some e)
    (hout : (normalizeSel s e).2.absoluteRow <
        (t.scrollback.length : ℤ) - ⌊t.viewportY⌋ ∨
      (t.scrollback.length : ℤ) - ⌊t.viewportY⌋ + (t.screenRows : ℤ) ≤
        (normalizeSel s e).1.absoluteRow) :
    getSelectionCoords t = none ∧
    ∀ v : ℚ, getSelection (setViewportY t v) = getSelection t := by
  constructor
  · simp only [getSelectionCoords, hs, he]
    have hcond : (normalizeSel s e).2.absoluteRow -
          (t.scrollback.length : ℤ) + ⌊t.viewportY⌋ < 0 ∨
        (t.screenRows : ℤ) ≤ (normalizeSel s e).1.absoluteRow -
          (t.scrollback.length : ℤ) + ⌊t.viewportY⌋ := by
      rcases hout with h | h
      · exact Or.inl (by omega)
      · exact Or.inr (by omega)
    rw [if_pos hcond]
  · intro v
    rfl

/-- Sample cell with a given codepoint. -/
def mkCell (cp : ℕ) : GhosttyCell :=
  { codepoint := cp, fg_r := 0, fg_g := 0, fg_b := 0,
    bg_r := 0, bg_g := 0, bg_b := 0, flags := 0, width := 1,
    hyperlink_id := 0 }

/-- Sample terminal model: one scrollback line, one screen line, viewport
at the bottom, a single-cell selection on the scrollback row (absolute
row 0, not visible since the visible absolute range is [1, 2)). -/
def sampleTerminal : TerminalModel :=
  { scrollback := [[mkCell 72]]
    screen := [[mkCell 73]]
    screenRows := 1
    viewportY := 0
    selStart := some { col := 0, absoluteRow := 0 }
    selEnd := some { col := 0, absoluteRow := 0 } }

/-- Witness for c8_offscreen_selection on the sample terminal model. -/
theorem c8_offscreen_selection_witness :
    getSelectionCoords sampleTerminal = none ∧
    getSelection (setViewportY sampleTerminal 1) =
      getSelection sampleTerminal := by
  have h := c8_offscreen_selection sampleTerminal
    { col := 0, absoluteRow := 0 } { col := 0, absoluteRow := 0 } rfl rfl
    (Or.inl (by norm_num [normalizeSel, sampleTerminal]))
  exact ⟨h.1, h.2 1⟩

end GhosttyWeb
